import Mathlib

/-!
Verification of the Clone Dance pose-matching and scoring core.

This file is a shallow embedding, in Lean 4, of the game-logic source
(the main game document of the repository: reference-track lookup,
calibration normalization, angle/position comparison engines, the
no-pose freeze detector, and the time-integrated score/combo state
machine), together with theorems settling the specification claims.

Modelling conventions:
- JavaScript numbers are modelled as rationals (ℚ).  All inputs that the
  claims exercise are finite, so the Number.isFinite guards of the source
  always pass in this model.
- JavaScript objects used as dictionaries are modelled as association
  lists; object-field access on a possibly-missing value is modelled with
  Option, where a result of none stands for a thrown TypeError.
- Mutable module-level state is passed explicitly: each stateful function
  takes its state record and returns the updated one.
- Configuration values come from a config.json document that is not part
  of the source tree; functions therefore take the configuration as a
  parameter, and the fallback defaults of the source (the values after each
  JavaScript nullish-coalescing operator) are provided as default
  configuration records.
-/

/-- One body landmark: position and visibility confidence,
mirroring the detector output shape used by the game logic. -/
structure Landmark where
  x : ℚ
  y : ℚ
  z : ℚ
  visibility : ℚ
deriving DecidableEq

/-- One entry of the reference track, as consumed by the time-indexed
lookups.  Only the timestamp participates in the search logic; the rest
of the entry (landmarks, angles) is abstracted by a tag that keeps
distinct entries distinct. -/
structure RefPose where
  timestamp : ℚ
  tag : ℕ
deriving DecidableEq

/- ----------------------------------------------------------------
Score/Combo state machine (updateScore, resetGame and the other
writers of the scoring globals in the game document).
---------------------------------------------------------------- -/

/-- Configuration consumed by updateScore. -/
structure ScoreCfg where
  accuracyThreshold : ℚ
  pointsPerSecond : ℚ
  comboSeconds : ℚ
  maxCombo : ℤ

/-- Fallback defaults of the source:
SCORE_ACCURACY_THRESHOLD ?? 0.7, SCORE_POINTS_PER_SECOND ?? 100,
COMBO_SECONDS ?? 2, MAX_COMBO ?? 5. -/
def defaultScoreCfg : ScoreCfg :=
  { accuracyThreshold := 7/10, pointsPerSecond := 100, comboSeconds := 2, maxCombo := 5 }

/-- The scoring globals of the game document, gathered into one record. -/
structure ScoreState where
  score : ℚ
  combo : ℤ
  currentAccuracy : ℚ
  lastScoreTimeSec : Option ℚ
  goodTimeAccumSec : ℚ
  goodStreakSec : ℚ
  statsMaxCombo : ℤ
  statsAverageAccuracyAccum : ℚ
  statsTrackedTimeSec : ℚ
deriving DecidableEq

/-- The while-loop of the source:
`while (goodTimeAccumSec >= 1) { score += pointsPerSecond; goodTimeAccumSec -= 1 }`,
written with explicit fuel (the loop runs at most ⌈goodTime⌉ times). -/
def scoreLoop (pointsPerSecond : ℚ) : ℕ → ℚ → ℚ → ℚ × ℚ
  | 0, score, goodTime => (score, goodTime)
  | fuel + 1, score, goodTime =>
    if 1 ≤ goodTime then
      scoreLoop pointsPerSecond fuel (score + pointsPerSecond) (goodTime - 1)
    else
      (score, goodTime)

/-- Run the payout loop with enough fuel for it to reach its natural exit. -/
def runScoreLoop (pointsPerSecond score goodTime : ℚ) : ℚ × ℚ :=
  scoreLoop pointsPerSecond (Int.toNat ⌈goodTime⌉) score goodTime

/-- Shallow embedding of updateScore(angleAccuracy, nowTimeSec, options). -/
def updateScore (cfg : ScoreCfg) (st : ScoreState) (angleAccuracy nowTimeSec : ℚ)
    (freezeScoring : Bool) : ScoreState :=
  if freezeScoring then
    { st with lastScoreTimeSec := some nowTimeSec }
  else
    let st1 := { st with currentAccuracy := angleAccuracy }
    match st1.lastScoreTimeSec with
    | none => { st1 with lastScoreTimeSec := some nowTimeSec }
    | some last =>
      if nowTimeSec < last then
        { st1 with lastScoreTimeSec := some nowTimeSec }
      else
        let delta := nowTimeSec - last
        let st2 := { st1 with lastScoreTimeSec := some nowTimeSec }
        if delta ≤ 0 then st2
        else
          let st3 := { st2 with
            statsAverageAccuracyAccum := st2.statsAverageAccuracyAccum + angleAccuracy * delta,
            statsTrackedTimeSec := st2.statsTrackedTimeSec + delta }
          if cfg.accuracyThreshold ≤ angleAccuracy then
            let streak := st3.goodStreakSec + delta
            let payout := runScoreLoop cfg.pointsPerSecond st3.score (st3.goodTimeAccumSec + delta)
            let newCombo := min cfg.maxCombo ⌊streak / cfg.comboSeconds⌋
            { st3 with
              score := payout.1,
              goodTimeAccumSec := payout.2,
              goodStreakSec := streak,
              combo := newCombo,
              statsMaxCombo := max st3.statsMaxCombo newCombo }
          else
            { st3 with goodTimeAccumSec := 0, goodStreakSec := 0, combo := 0 }

/-- The scoring fields as set by resetGame(). -/
def resetScoreState : ScoreState :=
  { score := 0, combo := 0, currentAccuracy := 0, lastScoreTimeSec := none,
    goodTimeAccumSec := 0, goodStreakSec := 0, statsMaxCombo := 0,
    statsAverageAccuracyAccum := 0, statsTrackedTimeSec := 0 }

/-- The scoring fields as mutated by startSongPlaybackFromBeginning(). -/
def startSongPlaybackScoreReset (st : ScoreState) (t : ℚ) : ScoreState :=
  { st with lastScoreTimeSec := some t, goodTimeAccumSec := 0, goodStreakSec := 0, combo := 0 }

/-- All states of the scoring globals reachable from resetGame() through the
mutators present in the game document: updateScore, the playback restart, and
the pause/resume handlers that only touch lastScoreTimeSec. -/
inductive ReachableScore (cfg : ScoreCfg) : ScoreState → Prop
  | init : ReachableScore cfg resetScoreState
  | update (st : ScoreState) (acc now : ℚ) (freeze : Bool) :
      ReachableScore cfg st → ReachableScore cfg (updateScore cfg st acc now freeze)
  | startPlayback (st : ScoreState) (t : ℚ) :
      ReachableScore cfg st → ReachableScore cfg (startSongPlaybackScoreReset st t)
  | pause (st : ScoreState) :
      ReachableScore cfg st → ReachableScore cfg { st with lastScoreTimeSec := none }
  | resume (st : ScoreState) (t : ℚ) :
      ReachableScore cfg st → ReachableScore cfg { st with lastScoreTimeSec := some t }

/-- C6: on a frozen instant, updateScore advances lastScoreTimeSec to now and
changes nothing else: score, goodTimeAccumSec, goodStreakSec, combo, the
accuracy-time statistics (and even currentAccuracy) are left exactly as they
were, so none of them can decrease and no dt burst survives the freeze. -/
theorem updateScore_frozen_only_advances_clock (cfg : ScoreCfg) (st : ScoreState)
    (acc now : ℚ) :
    updateScore cfg st acc now true = { st with lastScoreTimeSec := some now } := by
  simp [updateScore]

/-- C5: while scoring is live, if now is less than the recorded lastScoreTimeSec
(a seek backward), updateScore skips scoring for that instant entirely and only
resyncs lastScoreTimeSec to the new now (recording the accuracy of the instant):
score, combo, both good-time accumulators and all running statistics are
unchanged, so no negative dt is ever applied. -/
theorem updateScore_seek_backward_skips (cfg : ScoreCfg) (st : ScoreState)
    (acc now last : ℚ) (hlast : st.lastScoreTimeSec = some last) (hregress : now < last) :
    (updateScore cfg st acc now false).score = st.score ∧
    (updateScore cfg st acc now false).combo = st.combo ∧
    (updateScore cfg st acc now false).goodTimeAccumSec = st.goodTimeAccumSec ∧
    (updateScore cfg st acc now false).goodStreakSec = st.goodStreakSec ∧
    (updateScore cfg st acc now false).statsMaxCombo = st.statsMaxCombo ∧
    (updateScore cfg st acc now false).statsAverageAccuracyAccum
      = st.statsAverageAccuracyAccum ∧
    (updateScore cfg st acc now false).statsTrackedTimeSec = st.statsTrackedTimeSec ∧
    (updateScore cfg st acc now false).lastScoreTimeSec = some now := by
  simp [updateScore, hlast, hregress]

/-- Witness for C5 at the scenario given in the spec: lastScoreTimeSec = 5.0, now = 4.9. -/
theorem updateScore_seek_backward_skips_witness :
    (updateScore defaultScoreCfg
        { resetScoreState with lastScoreTimeSec := some 5 } 1 (49/10) false).score
      = ({ resetScoreState with lastScoreTimeSec := some 5 } : ScoreState).score ∧
    (updateScore defaultScoreCfg
        { resetScoreState with lastScoreTimeSec := some 5 } 1 (49/10) false).lastScoreTimeSec
      = some (49/10) := by
  have h := updateScore_seek_backward_skips defaultScoreCfg
    { resetScoreState with lastScoreTimeSec := some 5 } 1 (49/10) 5 rfl (by norm_num)
  exact ⟨h.1, h.2.2.2.2.2.2.2⟩

/-- Closed form of the payout loop: with fuel at least ⌈goodTime⌉ the loop
pays out some whole number k of point bundles and leaves goodTime - k < 1,
nonnegative when goodTime was. -/
theorem scoreLoop_spec (pps : ℚ) :
    ∀ (fuel : ℕ) (score g : ℚ), ⌈g⌉ ≤ (fuel : ℤ) →
      ∃ k : ℕ, scoreLoop pps fuel score g = (score + k * pps, g - k) ∧
        g - k < 1 ∧ (0 ≤ g → 0 ≤ g - k) := by
  intro fuel
  induction fuel with
  | zero =>
    intro score g hfuel
    have hg : g ≤ 0 := by exact_mod_cast Int.ceil_le.mp hfuel
    exact ⟨0, by simp [scoreLoop], by push_cast; linarith,
      by push_cast; intro h; linarith⟩
  | succ n ih =>
    intro score g hfuel
    by_cases h1 : 1 ≤ g
    · have hceil : ⌈g - 1⌉ ≤ (n : ℤ) := by
        have h2 : ⌈g - ((1 : ℤ) : ℚ)⌉ = ⌈g⌉ - 1 := Int.ceil_sub_int g 1
        push_cast at h2
        push_cast at hfuel
        omega
      obtain ⟨k, hk, hlt, hnn⟩ := ih (score + pps) (g - 1) hceil
      refine ⟨k + 1, ?_, ?_, ?_⟩
      · simp only [scoreLoop, if_pos h1, hk, Prod.mk.injEq]
        constructor
        · push_cast
          ring
        · push_cast
          ring
      · push_cast
        linarith
      · intro hg
        have h3 := hnn (by linarith)
        push_cast at h3 ⊢
        linarith
    · refine ⟨0, by simp [scoreLoop, h1], ?_, by push_cast; intro h; linarith⟩
      push_cast
      linarith [lt_of_not_le h1]

/-- runScoreLoop satisfies the payout closed form. -/
theorem runScoreLoop_spec (pps score g : ℚ) :
    ∃ k : ℕ, runScoreLoop pps score g = (score + k * pps, g - k) ∧
      g - k < 1 ∧ (0 ≤ g → 0 ≤ g - k) :=
  scoreLoop_spec pps (Int.toNat ⌈g⌉) score g (Int.self_le_toNat _)

/-- The full record produced by updateScore on a live, forward-moving,
above-threshold instant. -/
def goodStep (cfg : ScoreCfg) (st : ScoreState) (acc now last : ℚ) : ScoreState :=
  { st with
    currentAccuracy := acc,
    lastScoreTimeSec := some now,
    statsAverageAccuracyAccum := st.statsAverageAccuracyAccum + acc * (now - last),
    statsTrackedTimeSec := st.statsTrackedTimeSec + (now - last),
    score := (runScoreLoop cfg.pointsPerSecond st.score (st.goodTimeAccumSec + (now - last))).1,
    goodTimeAccumSec :=
      (runScoreLoop cfg.pointsPerSecond st.score (st.goodTimeAccumSec + (now - last))).2,
    goodStreakSec := st.goodStreakSec + (now - last),
    combo := min cfg.maxCombo ⌊(st.goodStreakSec + (now - last)) / cfg.comboSeconds⌋,
    statsMaxCombo := max st.statsMaxCombo
      (min cfg.maxCombo ⌊(st.goodStreakSec + (now - last)) / cfg.comboSeconds⌋) }

/-- The full record produced by updateScore on a live, forward-moving,
below-threshold instant. -/
def badStep (st : ScoreState) (acc now last : ℚ) : ScoreState :=
  { st with
    currentAccuracy := acc,
    lastScoreTimeSec := some now,
    statsAverageAccuracyAccum := st.statsAverageAccuracyAccum + acc * (now - last),
    statsTrackedTimeSec := st.statsTrackedTimeSec + (now - last),
    goodTimeAccumSec := 0, goodStreakSec := 0, combo := 0 }

theorem updateScore_good_eq (cfg : ScoreCfg) (st : ScoreState) (acc now last : ℚ)
    (hl : st.lastScoreTimeSec = some last) (hlt : last < now)
    (hacc : cfg.accuracyThreshold ≤ acc) :
    updateScore cfg st acc now false = goodStep cfg st acc now last := by
  have hd : ¬(now - last ≤ 0) := fun hcon => absurd (sub_nonpos.mp hcon) (not_le.mpr hlt)
  simp [updateScore, goodStep, hl, lt_asymm hlt, hd, hacc]

theorem updateScore_bad_eq (cfg : ScoreCfg) (st : ScoreState) (acc now last : ℚ)
    (hl : st.lastScoreTimeSec = some last) (hlt : last < now)
    (hacc : acc < cfg.accuracyThreshold) :
    updateScore cfg st acc now false = badStep st acc now last := by
  have hd : ¬(now - last ≤ 0) := fun hcon => absurd (sub_nonpos.mp hcon) (not_le.mpr hlt)
  simp [updateScore, badStep, hl, lt_asymm hlt, hd, not_le.mpr hacc]

/-- Every invocation of updateScore lands in one of four shapes: a pure clock
resync (frozen), a skip that records accuracy and resyncs the clock, a good
step, or a bad step. -/
theorem updateScore_cases (cfg : ScoreCfg) (st : ScoreState) (acc now : ℚ) (freeze : Bool) :
    updateScore cfg st acc now freeze = { st with lastScoreTimeSec := some now } ∨
    updateScore cfg st acc now freeze
      = { st with currentAccuracy := acc, lastScoreTimeSec := some now } ∨
    (∃ last, st.lastScoreTimeSec = some last ∧ last < now ∧ cfg.accuracyThreshold ≤ acc ∧
      updateScore cfg st acc now freeze = goodStep cfg st acc now last) ∨
    (∃ last, st.lastScoreTimeSec = some last ∧ last < now ∧ acc < cfg.accuracyThreshold ∧
      updateScore cfg st acc now freeze = badStep st acc now last) := by
  cases freeze with
  | true => exact Or.inl (by simp [updateScore])
  | false =>
    cases hl : st.lastScoreTimeSec with
    | none => exact Or.inr (Or.inl (by simp [updateScore, hl]))
    | some last =>
      by_cases hr : now < last
      · exact Or.inr (Or.inl (by simp [updateScore, hl, hr]))
      · by_cases hd : now - last ≤ 0
        · exact Or.inr (Or.inl (by simp [updateScore, hl, hr, hd]))
        · have hlt : last < now := sub_pos.mp (lt_of_not_le hd)
          by_cases hacc : cfg.accuracyThreshold ≤ acc
          · exact Or.inr (Or.inr (Or.inl
              ⟨last, rfl, hlt, hacc, updateScore_good_eq cfg st acc now last hl hlt hacc⟩))
          · exact Or.inr (Or.inr (Or.inr
              ⟨last, rfl, hlt, lt_of_not_le hacc,
                updateScore_bad_eq cfg st acc now last hl hlt (lt_of_not_le hacc)⟩))

/-- C10: in every reachable state of the scoring globals the good-time
accumulator lies in [0, 1), and the score is an exact whole multiple of the
configured points-per-second bundle; fractional good time is carried over,
never awarded directly. -/
theorem goodTime_interval_and_score_multiple (cfg : ScoreCfg) (st : ScoreState)
    (h : ReachableScore cfg st) :
    0 ≤ st.goodTimeAccumSec ∧ st.goodTimeAccumSec < 1 ∧
      ∃ k : ℕ, st.score = k * cfg.pointsPerSecond := by
  induction h with
  | init => exact ⟨le_refl 0, by norm_num [resetScoreState], 0, by simp [resetScoreState]⟩
  | update st acc now freeze hst ih =>
    obtain ⟨h0, h1, k, hk⟩ := ih
    rcases updateScore_cases cfg st acc now freeze with heq | heq |
      ⟨last, hl, hlt, hacc, heq⟩ | ⟨last, hl, hlt, hacc, heq⟩
    · rw [heq]
      exact ⟨h0, h1, k, hk⟩
    · rw [heq]
      exact ⟨h0, h1, k, hk⟩
    · rw [heq]
      obtain ⟨j, hj, hjlt, hjnn⟩ := runScoreLoop_spec cfg.pointsPerSecond st.score
        (st.goodTimeAccumSec + (now - last))
      have hδ : (0 : ℚ) < now - last := sub_pos.mpr hlt
      have hg : 0 ≤ st.goodTimeAccumSec + (now - last) := by linarith
      refine ⟨?_, ?_, k + j, ?_⟩
      · simp only [goodStep, hj]
        exact hjnn hg
      · simp only [goodStep, hj]
        exact hjlt
      · simp only [goodStep, hj]
        rw [hk]
        push_cast
        ring
    · rw [heq]
      exact ⟨le_refl 0, by norm_num [badStep], k, hk⟩
  | startPlayback st t hst ih =>
    obtain ⟨h0, h1, k, hk⟩ := ih
    exact ⟨le_refl 0, by norm_num [startSongPlaybackScoreReset], k, hk⟩
  | pause st hst ih => exact ih
  | resume st t hst ih => exact ih

/-- Witness for C10 on a state reached by an actual good scoring step. -/
theorem goodTime_interval_and_score_multiple_witness :
    0 ≤ (updateScore defaultScoreCfg
        { resetScoreState with lastScoreTimeSec := some 0 } 1 2 false).goodTimeAccumSec ∧
    (updateScore defaultScoreCfg
        { resetScoreState with lastScoreTimeSec := some 0 } 1 2 false).goodTimeAccumSec < 1 ∧
    ∃ k : ℕ, (updateScore defaultScoreCfg
        { resetScoreState with lastScoreTimeSec := some 0 } 1 2 false).score
      = k * defaultScoreCfg.pointsPerSecond :=
  goodTime_interval_and_score_multiple defaultScoreCfg _
    (ReachableScore.update _ 1 2 false (ReachableScore.resume _ 0 ReachableScore.init))

/-- In every reachable state, combo equals
min(maxCombo, floor(goodStreakSec / comboSeconds)). -/
theorem reachable_combo_eq (cfg : ScoreCfg) (hmax : 0 ≤ cfg.maxCombo) (st : ScoreState)
    (h : ReachableScore cfg st) :
    st.combo = min cfg.maxCombo ⌊st.goodStreakSec / cfg.comboSeconds⌋ := by
  induction h with
  | init =>
    simp only [resetScoreState, zero_div, Int.floor_zero]
    omega
  | update st acc now freeze hst ih =>
    rcases updateScore_cases cfg st acc now freeze with heq | heq |
      ⟨last, hl, hlt, hacc, heq⟩ | ⟨last, hl, hlt, hacc, heq⟩
    · rw [heq]
      exact ih
    · rw [heq]
      exact ih
    · rw [heq]
      rfl
    · rw [heq]
      simp only [badStep, zero_div, Int.floor_zero]
      omega
  | startPlayback st t hst ih =>
    simp only [startSongPlaybackScoreReset, zero_div, Int.floor_zero]
    omega
  | pause st hst ih => exact ih
  | resume st t hst ih => exact ih

/-- C7: in every reachable state, combo equals
min(maxCombo, floor(goodStreakSec / comboSeconds)) and never exceeds maxCombo;
it cannot decrease on any instant whose accuracy is at or above the threshold
(frozen or skipped instants leave it unchanged), and a live forward instant
below the threshold resets combo and both accumulators to exactly 0. -/
theorem combo_formula_monotone_reset_bounded (cfg : ScoreCfg) (hmax : 0 ≤ cfg.maxCombo)
    (hcs : 0 < cfg.comboSeconds) (st : ScoreState) (h : ReachableScore cfg st) :
    st.combo = min cfg.maxCombo ⌊st.goodStreakSec / cfg.comboSeconds⌋ ∧
    st.combo ≤ cfg.maxCombo ∧
    (∀ acc now : ℚ, ∀ freeze : Bool, cfg.accuracyThreshold ≤ acc →
      st.combo ≤ (updateScore cfg st acc now freeze).combo) ∧
    (∀ acc now last : ℚ, acc < cfg.accuracyThreshold → st.lastScoreTimeSec = some last →
      last < now →
      (updateScore cfg st acc now false).combo = 0 ∧
      (updateScore cfg st acc now false).goodTimeAccumSec = 0 ∧
      (updateScore cfg st acc now false).goodStreakSec = 0) := by
  have hc := reachable_combo_eq cfg hmax st h
  refine ⟨hc, ?_, ?_, ?_⟩
  · rw [hc]
    exact min_le_left _ _
  · intro acc now freeze hacc
    rcases updateScore_cases cfg st acc now freeze with heq | heq |
      ⟨last, hl, hlt, hacc', heq⟩ | ⟨last, hl, hlt, hacc', heq⟩
    · rw [heq]
    · rw [heq]
    · rw [heq]
      rw [hc]
      have hmono : st.goodStreakSec / cfg.comboSeconds
          ≤ (st.goodStreakSec + (now - last)) / cfg.comboSeconds := by
        have hδ : (0 : ℚ) < now - last := sub_pos.mpr hlt
        gcongr
        linarith
      exact min_le_min (le_refl _) (Int.floor_le_floor hmono)
    · exact absurd hacc (not_le.mpr hacc')
  · intro acc now last hacc hl hlt
    rw [updateScore_bad_eq cfg st acc now last hl hlt hacc]
    exact ⟨rfl, rfl, rfl⟩

/-- Witness for C7 at the default configuration and the reset state. -/
theorem combo_formula_monotone_reset_bounded_witness :
    (0 ≤ defaultScoreCfg.maxCombo ∧ (0 : ℚ) < defaultScoreCfg.comboSeconds) ∧
    resetScoreState.combo
      = min defaultScoreCfg.maxCombo
          ⌊resetScoreState.goodStreakSec / defaultScoreCfg.comboSeconds⌋ ∧
    resetScoreState.combo ≤ defaultScoreCfg.maxCombo := by
  have h := combo_formula_monotone_reset_bounded defaultScoreCfg
    (by norm_num [defaultScoreCfg]) (by norm_num [defaultScoreCfg])
    resetScoreState ReachableScore.init
  exact ⟨⟨by norm_num [defaultScoreCfg], by norm_num [defaultScoreCfg]⟩, h.1, h.2.1⟩

/- ----------------------------------------------------------------
No-pose freeze detection (updateNoPoseState, resetNoPoseState).
---------------------------------------------------------------- -/

/-- Configuration consumed by updateNoPoseState. -/
structure NoPoseCfg where
  minReferenceAngles : ℕ
  minPlayerAngles : ℕ
  referenceWarningDelaySec : ℚ
  playerWarningDelaySec : ℚ

/-- Fallback defaults of the source:
MIN_REFERENCE_DETECTED_ANGLES_FOR_SCORING ?? 1,
MIN_PLAYER_DETECTED_ANGLES_FOR_SCORING ?? 1,
REFERENCE_NO_POSE_WARNING_DELAY_SEC ?? 2, PLAYER_NO_POSE_WARNING_DELAY_SEC ?? 2. -/
def defaultNoPoseCfg : NoPoseCfg :=
  { minReferenceAngles := 1, minPlayerAngles := 1,
    referenceWarningDelaySec := 2, playerWarningDelaySec := 2 }

/-- The two independent since timestamps of the no-pose detector. -/
structure NoPoseState where
  referenceLowAnglesSinceSec : Option ℚ
  playerLowAnglesSinceSec : Option ℚ
deriving DecidableEq

/-- resetNoPoseState() clears both since timestamps. -/
def resetNoPoseState : NoPoseState :=
  { referenceLowAnglesSinceSec := none, playerLowAnglesSinceSec := none }

def referenceNoPoseWarning : String := "TOO FEW POSES IN REFERENCE VIDEO)"

def playerNoPoseWarning : String := "TOO FEW POSES IN YOUR VIDEO"

def noPoseWarningSeparator : String := " | "

/-- Return record of updateNoPoseState, together with the updated state and
the module-level warning message it writes. -/
structure NoPoseResult where
  state : NoPoseState
  noPoseWarningMessage : String
  referenceInsufficient : Bool
  playerInsufficient : Bool
  freezeScoring : Bool
deriving DecidableEq

/-- Shallow embedding of
updateNoPoseState(referenceDetectedAngles, playerDetectedAngles, nowTimeSec). -/
def updateNoPoseState (cfg : NoPoseCfg) (st : NoPoseState)
    (referenceDetectedAngles playerDetectedAngles : ℕ) (nowTimeSec : ℚ) : NoPoseResult :=
  let referenceInsufficient : Bool := decide (referenceDetectedAngles < cfg.minReferenceAngles)
  let playerInsufficient : Bool := decide (playerDetectedAngles < cfg.minPlayerAngles)
  let refSince : Option ℚ :=
    if referenceInsufficient then
      match st.referenceLowAnglesSinceSec with
      | none => some nowTimeSec
      | some s => some s
    else none
  let playerSince : Option ℚ :=
    if playerInsufficient then
      match st.playerLowAnglesSinceSec with
      | none => some nowTimeSec
      | some s => some s
    else none
  let warnings : List String :=
    (match refSince with
     | some s =>
       if referenceInsufficient && decide (cfg.referenceWarningDelaySec ≤ nowTimeSec - s) then
         [referenceNoPoseWarning]
       else []
     | none => []) ++
    (match playerSince with
     | some s =>
       if playerInsufficient && decide (cfg.playerWarningDelaySec ≤ nowTimeSec - s) then
         [playerNoPoseWarning]
       else []
     | none => [])
  { state := { referenceLowAnglesSinceSec := refSince, playerLowAnglesSinceSec := playerSince },
    noPoseWarningMessage := String.intercalate noPoseWarningSeparator warnings,
    referenceInsufficient := referenceInsufficient,
    playerInsufficient := playerInsufficient,
    freezeScoring := referenceInsufficient || playerInsufficient }

/-- Counterexample to C2: at the very instant the reference side first becomes
insufficient (since timestamp set to now, zero elapsed time, far below the
2-second grace delay) freezeScoring is already true, and feeding it into
updateScore makes that instant a pure clock resync — it is not scored,
contrary to the claim that freezing waits for the grace delay. -/
theorem updateNoPoseState_immediate_freeze_counterexample :
    (updateNoPoseState defaultNoPoseCfg resetNoPoseState 0 5 1).freezeScoring = true ∧
    (updateNoPoseState defaultNoPoseCfg resetNoPoseState 0 5 1).state.referenceLowAnglesSinceSec
      = some 1 ∧
    ¬(defaultNoPoseCfg.referenceWarningDelaySec ≤ (1 : ℚ) - 1) ∧
    updateScore defaultScoreCfg { resetScoreState with lastScoreTimeSec := some 0 } 1 1
        (updateNoPoseState defaultNoPoseCfg resetNoPoseState 0 5 1).freezeScoring
      = { resetScoreState with lastScoreTimeSec := some 1 } := by
  refine ⟨?_, ?_, ?_, ?_⟩
  · simp [updateNoPoseState, defaultNoPoseCfg]
  · simp [updateNoPoseState, defaultNoPoseCfg, resetNoPoseState]
  · norm_num [defaultNoPoseCfg]
  · have hfr : (updateNoPoseState defaultNoPoseCfg resetNoPoseState 0 5 1).freezeScoring
        = true := by simp [updateNoPoseState, defaultNoPoseCfg]
    rw [hfr]
    simp [updateScore]

/-- C2 (amended): freezeScoring is exactly the disjunction of the two
instantaneous insufficiency tests — the grace delays play no role in it; each
since timestamp of each side is tracked independently, set to now when that side
first becomes insufficient, kept while it stays insufficient, and reset to
null the instant sufficiency of that side is restored. -/
theorem updateNoPoseState_freeze_and_since_spec (cfg : NoPoseCfg) (st : NoPoseState)
    (refD pD : ℕ) (now : ℚ) :
    (updateNoPoseState cfg st refD pD now).freezeScoring
      = (decide (refD < cfg.minReferenceAngles) || decide (pD < cfg.minPlayerAngles)) ∧
    (updateNoPoseState cfg st refD pD now).referenceInsufficient
      = decide (refD < cfg.minReferenceAngles) ∧
    (updateNoPoseState cfg st refD pD now).playerInsufficient
      = decide (pD < cfg.minPlayerAngles) ∧
    (refD < cfg.minReferenceAngles →
      (updateNoPoseState cfg st refD pD now).state.referenceLowAnglesSinceSec
        = some (st.referenceLowAnglesSinceSec.getD now)) ∧
    (cfg.minReferenceAngles ≤ refD →
      (updateNoPoseState cfg st refD pD now).state.referenceLowAnglesSinceSec = none) ∧
    (pD < cfg.minPlayerAngles →
      (updateNoPoseState cfg st refD pD now).state.playerLowAnglesSinceSec
        = some (st.playerLowAnglesSinceSec.getD now)) ∧
    (cfg.minPlayerAngles ≤ pD →
      (updateNoPoseState cfg st refD pD now).state.playerLowAnglesSinceSec = none) := by
  refine ⟨rfl, rfl, rfl, ?_, ?_, ?_, ?_⟩
  · intro h
    cases hr : st.referenceLowAnglesSinceSec with
    | none => simp [updateNoPoseState, h, hr]
    | some s => simp [updateNoPoseState, h, hr]
  · intro h
    simp [updateNoPoseState, not_lt.mpr h]
  · intro h
    cases hp : st.playerLowAnglesSinceSec with
    | none => simp [updateNoPoseState, h, hp]
    | some s => simp [updateNoPoseState, h, hp]
  · intro h
    simp [updateNoPoseState, not_lt.mpr h]

/-- Witness for the amended theorem of C2, at the default configuration: reference
side insufficient (0 detected angles, minimum 1), performer side sufficient. -/
theorem updateNoPoseState_freeze_and_since_witness :
    (0 < defaultNoPoseCfg.minReferenceAngles ∧ defaultNoPoseCfg.minPlayerAngles ≤ 5) ∧
    (updateNoPoseState defaultNoPoseCfg resetNoPoseState 0 5 3).state.referenceLowAnglesSinceSec
      = some (resetNoPoseState.referenceLowAnglesSinceSec.getD 3) ∧
    (updateNoPoseState defaultNoPoseCfg resetNoPoseState 0 5 3).state.playerLowAnglesSinceSec
      = none := by
  have h := updateNoPoseState_freeze_and_since_spec defaultNoPoseCfg resetNoPoseState 0 5 3
  exact ⟨⟨by norm_num [defaultNoPoseCfg], by norm_num [defaultNoPoseCfg]⟩,
    h.2.2.2.1 (by norm_num [defaultNoPoseCfg]), h.2.2.2.2.2.2 (by norm_num [defaultNoPoseCfg])⟩

/- ----------------------------------------------------------------
Position engine (comparePositions).
---------------------------------------------------------------- -/

/-- Configuration consumed by comparePositions: SCORING_JOINTS,
POSITION_SMOOTHING, POSITION_THRESHOLD. -/
structure PosCfg where
  scoringJoints : List ℕ
  positionSmoothing : ℚ
  positionThreshold : ℚ

/-- Return record of comparePositions.  A matches entry of none models the
JavaScript null written for a skipped (missing or low-visibility) joint. -/
structure PosResult where
  score : ℚ
  accuracy : ℚ
  «matches» : List (ℕ × Option Bool)
  avgDistance : ℚ
  matchedCount : ℕ
  totalJoints : ℕ
deriving DecidableEq

/-- Loop accumulator of comparePositions: the per-joint smoothing history and
the running totals. -/
structure PosAcc where
  hist : List (ℕ × ℚ)
  «matches» : List (ℕ × Option Bool)
  totalDistance : ℚ
  count : ℕ
  matchedCount : ℕ

/-- The for-loop of comparePositions over GameConfig.SCORING_JOINTS.
Math.sqrt has no exact rational counterpart, so the square-root function is a
parameter; the low-visibility claims never reach it. -/
def comparePositionsLoop (cfg : PosCfg) (sqrtFn : ℚ → ℚ)
    (player refLms : ℕ → Option Landmark) : List ℕ → PosAcc → PosAcc
  | [], acc => acc
  | jointIdx :: rest, acc =>
    match player jointIdx, refLms jointIdx with
    | some playerJoint, some refJoint =>
      if playerJoint.visibility < 1/2 ∨ refJoint.visibility < 1/2 then
        comparePositionsLoop cfg sqrtFn player refLms rest
          { acc with «matches» := acc.«matches» ++ [(jointIdx, none)] }
      else
        let rawDistance := sqrtFn ((playerJoint.x - refJoint.x) ^ 2 +
          (playerJoint.y - refJoint.y) ^ 2 + (playerJoint.z - refJoint.z) ^ 2)
        let distance := match acc.hist.lookup jointIdx with
          | some prev => cfg.positionSmoothing * rawDistance +
              (1 - cfg.positionSmoothing) * prev
          | none => rawDistance
        let isMatch := decide (distance < cfg.positionThreshold)
        comparePositionsLoop cfg sqrtFn player refLms rest
          { hist := (jointIdx, distance) :: acc.hist,
            «matches» := acc.«matches» ++ [(jointIdx, some isMatch)],
            totalDistance := acc.totalDistance + distance,
            count := acc.count + 1,
            matchedCount := acc.matchedCount + (if isMatch then 1 else 0) }
    | _, _ =>
      comparePositionsLoop cfg sqrtFn player refLms rest
        { acc with «matches» := acc.«matches» ++ [(jointIdx, none)] }

/-- Shallow embedding of comparePositions(playerLandmarks, refLandmarks).
The JavaScript truthiness fallbacks are modelled exactly:
avgDistance is totalDistance/count unless count is 0 (NaN) or the quotient is
exactly 0, in which case the falsy-or of the source picks 1.0; accuracy is
matchedCount/count unless count is 0, in which case it is 0. -/
def comparePositions (cfg : PosCfg) (sqrtFn : ℚ → ℚ) (hist : List (ℕ × ℚ))
    (player refLms : ℕ → Option Landmark) : PosResult × List (ℕ × ℚ) :=
  let acc := comparePositionsLoop cfg sqrtFn player refLms cfg.scoringJoints
    { hist := hist, «matches» := [], totalDistance := 0, count := 0, matchedCount := 0 }
  let avgDistance : ℚ :=
    if acc.count = 0 ∨ acc.totalDistance / (acc.count : ℚ) = 0 then 1
    else acc.totalDistance / (acc.count : ℚ)
  let score := max 0 (1 - avgDistance)
  let accuracy : ℚ := if acc.count = 0 then 0 else (acc.matchedCount : ℚ) / (acc.count : ℚ)
  ({ score := score, accuracy := accuracy, «matches» := acc.«matches»,
     avgDistance := avgDistance, matchedCount := acc.matchedCount,
     totalJoints := acc.count }, acc.hist)

/-- When every performer landmark is below visibility 0.5, every configured
scoring joint takes the skip branch of the loop. -/
theorem comparePositionsLoop_all_skip (cfg : PosCfg) (sqrtFn : ℚ → ℚ)
    (player refLms : ℕ → Option Landmark)
    (hvis : ∀ i lm, player i = some lm → lm.visibility < 1/2) :
    ∀ (joints : List ℕ) (acc : PosAcc),
      comparePositionsLoop cfg sqrtFn player refLms joints acc
        = { acc with «matches» := acc.«matches» ++ joints.map (fun j => (j, none)) } := by
  intro joints
  induction joints with
  | nil => intro acc; simp [comparePositionsLoop]
  | cons j rest ih =>
    intro acc
    cases hp : player j with
    | none =>
      cases hr : refLms j with
      | none => simp [comparePositionsLoop, hp, hr, ih]
      | some refJoint => simp [comparePositionsLoop, hp, hr, ih]
    | some playerJoint =>
      cases hr : refLms j with
      | none => simp [comparePositionsLoop, hp, hr, ih]
      | some refJoint =>
        simp [comparePositionsLoop, hp, hr, ih]
        intro hcon
        have h2 := hvis j playerJoint hp
        linarith

/-- C4 (amended): for a performer pose whose landmarks are all below
visibility 0.5, comparePositions returns accuracy 0 (and score 0), leaves the
smoothing history untouched, and returns a matches map that binds every
configured scoring joint to null — one null entry per joint, not an empty
map.  The function is total in this model: no JavaScript throw is possible on
this path. -/
theorem comparePositions_low_visibility_spec (cfg : PosCfg) (sqrtFn : ℚ → ℚ)
    (hist : List (ℕ × ℚ)) (player refLms : ℕ → Option Landmark)
    (hvis : ∀ i lm, player i = some lm → lm.visibility < 1/2) :
    (comparePositions cfg sqrtFn hist player refLms).1.accuracy = 0 ∧
    (comparePositions cfg sqrtFn hist player refLms).1.score = 0 ∧
    (comparePositions cfg sqrtFn hist player refLms).1.«matches»
      = cfg.scoringJoints.map (fun j => (j, none)) ∧
    (comparePositions cfg sqrtFn hist player refLms).2 = hist := by
  have hloop := comparePositionsLoop_all_skip cfg sqrtFn player refLms hvis
    cfg.scoringJoints
    { hist := hist, «matches» := [], totalDistance := 0, count := 0, matchedCount := 0 }
  refine ⟨?_, ?_, ?_, ?_⟩ <;> simp [comparePositions, hloop]

/-- A one-landmark performer pose whose only landmark has visibility 0. -/
def lowVisPlayerPose : ℕ → Option Landmark := fun i =>
  if i = 11 then some { x := 0, y := 0, z := 0, visibility := 0 } else none

/-- Witness for the amended theorem of C4 at a concrete all-low-visibility pose. -/
theorem comparePositions_low_visibility_witness :
    (∀ i lm, lowVisPlayerPose i = some lm → lm.visibility < 1/2) ∧
    (comparePositions ⟨[11], 3/10, 3/20⟩ id [] lowVisPlayerPose lowVisPlayerPose).1.accuracy
      = 0 ∧
    (comparePositions ⟨[11], 3/10, 3/20⟩ id [] lowVisPlayerPose lowVisPlayerPose).1.«matches»
      = [11].map (fun j => (j, none)) := by
  have hvis : ∀ i lm, lowVisPlayerPose i = some lm → lm.visibility < 1/2 := by
    intro i lm h
    by_cases hi : i = 11
    · subst hi
      simp [lowVisPlayerPose] at h
      rw [← h]
      norm_num
    · simp [lowVisPlayerPose, hi] at h
  have h := comparePositions_low_visibility_spec ⟨[11], 3/10, 3/20⟩ id []
    lowVisPlayerPose lowVisPlayerPose hvis
  exact ⟨hvis, h.1, h.2.2.1⟩

/-- Counterexample to C4: with one configured scoring joint and an
all-low-visibility performer pose the matches map is not empty — it binds
joint 11 to null — refuting the "empty matches map" of the claim. -/
theorem comparePositions_matches_not_empty_counterexample :
    (comparePositions ⟨[11], 3/10, 3/20⟩ id [] lowVisPlayerPose lowVisPlayerPose).1.«matches»
      = [(11, none)] ∧
    (comparePositions ⟨[11], 3/10, 3/20⟩ id [] lowVisPlayerPose lowVisPlayerPose).1.«matches»
      ≠ [] ∧
    (comparePositions ⟨[11], 3/10, 3/20⟩ id [] lowVisPlayerPose lowVisPlayerPose).1.accuracy
      = 0 := by
  have hm : (comparePositionsLoop ⟨[11], 3/10, 3/20⟩ id lowVisPlayerPose lowVisPlayerPose [11]
      { hist := [], «matches» := [], totalDistance := 0, count := 0, matchedCount := 0 })
      = { hist := [], «matches» := [(11, none)], totalDistance := 0, count := 0,
          matchedCount := 0 } := by
    norm_num [comparePositionsLoop, lowVisPlayerPose]
  refine ⟨?_, ?_, ?_⟩ <;> simp [comparePositions, hm]

/- ----------------------------------------------------------------
Angle engine (compareAngles).
---------------------------------------------------------------- -/

/-- Configuration consumed by compareAngles: ANGLE_MATCH_SIMILARITY,
ANGLE_SIMILARITY_RANGE, ANGLE_ALLOWED_MISSES (source fallbacks 0.9, 180, 2)
and ANGLE_SMOOTHING (no source fallback; always a parameter here). -/
structure AngleCfg where
  angleMatchSimilarity : ℚ
  angleSimilarityRange : ℚ
  angleAllowedMisses : ℕ
  angleSmoothing : ℚ

/-- Loop accumulator of compareAngles: per-angle smoothing history plus the
running per-angle maps and counters. -/
structure AngleAcc where
  hist : List (String × ℚ)
  «matches» : List (String × Bool)
  similarities : List (String × ℚ)
  diffs : List (String × Option ℚ)
  count : ℕ
  matchedCount : ℕ

/-- Return record of compareAngles. -/
structure AngleResult where
  score : ℚ
  accuracy : ℚ
  «matches» : List (String × Bool)
  similarities : List (String × ℚ)
  diffs : List (String × Option ℚ)
  matchedCount : ℕ
  totalAngles : ℕ
  allowedMisses : ℕ
deriving DecidableEq

/-- The for-loop of compareAngles over Object.entries(refAngles). -/
def compareAnglesLoop (cfg : AngleCfg) (playerAngles : String → Option ℚ) :
    List (String × Option ℚ) → AngleAcc → AngleAcc
  | [], acc => acc
  | (angleName, refEntry) :: rest, acc =>
    match refEntry with
    | none => compareAnglesLoop cfg playerAngles rest acc
    | some refAngle =>
      match playerAngles angleName with
      | none =>
        compareAnglesLoop cfg playerAngles rest
          { acc with
            «matches» := acc.«matches» ++ [(angleName, false)],
            similarities := acc.similarities ++ [(angleName, 0)],
            diffs := acc.diffs ++ [(angleName, none)],
            count := acc.count + 1 }
      | some playerAngle =>
        let smoothedPlayerAngle := match acc.hist.lookup angleName with
          | some prev => cfg.angleSmoothing * playerAngle + (1 - cfg.angleSmoothing) * prev
          | none => playerAngle
        let angleDiff := |smoothedPlayerAngle - refAngle|
        let similarity := max 0 (1 - angleDiff / cfg.angleSimilarityRange)
        let isMatch := decide (cfg.angleMatchSimilarity ≤ similarity)
        compareAnglesLoop cfg playerAngles rest
          { hist := (angleName, smoothedPlayerAngle) :: acc.hist,
            «matches» := acc.«matches» ++ [(angleName, isMatch)],
            similarities := acc.similarities ++ [(angleName, similarity)],
            diffs := acc.diffs ++ [(angleName, some angleDiff)],
            count := acc.count + 1,
            matchedCount := acc.matchedCount + (if isMatch then 1 else 0) }

/-- Shallow embedding of compareAngles(playerAngles, refAngles), returning the
result record and the updated angle smoothing history. -/
def compareAngles (cfg : AngleCfg) (hist : List (String × ℚ))
    (playerAngles : String → Option ℚ) (refAngles : List (String × Option ℚ)) :
    AngleResult × List (String × ℚ) :=
  let acc := compareAnglesLoop cfg playerAngles refAngles
    { hist := hist, «matches» := [], similarities := [], diffs := [],
      count := 0, matchedCount := 0 }
  if acc.count = 0 then
    ({ score := 0, accuracy := 0, «matches» := [], similarities := [], diffs := [],
       matchedCount := 0, totalAngles := 0, allowedMisses := cfg.angleAllowedMisses },
     acc.hist)
  else
    let effectiveTotal := max 1 (acc.count - cfg.angleAllowedMisses)
    let accuracy := max 0 (min 1 ((acc.matchedCount : ℚ) / (effectiveTotal : ℚ)))
    ({ score := accuracy, accuracy := accuracy, «matches» := acc.«matches»,
       similarities := acc.similarities, diffs := acc.diffs,
       matchedCount := acc.matchedCount, totalAngles := acc.count,
       allowedMisses := cfg.angleAllowedMisses }, acc.hist)

def kneeAngleName : String := "knee"

/-- The C8 scenario configuration: similarity threshold 0.9, angular range
180, the allowed-misses fallback 2 of the source, and an arbitrary smoothing
coefficient. -/
def kneeScenarioCfg (alpha : ℚ) : AngleCfg :=
  { angleMatchSimilarity := 9/10, angleSimilarityRange := 180,
    angleAllowedMisses := 2, angleSmoothing := alpha }

/-- A performer whose knee angle is steady at 90 degrees. -/
def kneePlayerAngles : String → Option ℚ :=
  fun n => if n = kneeAngleName then some 90 else none

/-- The t = 0 evaluation of the C8 scenario, on a fresh smoothing history. -/
def kneeScenarioFirst (alpha : ℚ) : AngleResult × List (String × ℚ) :=
  compareAngles (kneeScenarioCfg alpha) [] kneePlayerAngles [(kneeAngleName, some 90)]

/-- The t = 1 evaluation of the C8 scenario, threading the smoothing history
left by the t = 0 evaluation. -/
def kneeScenarioSecond (alpha : ℚ) : AngleResult × List (String × ℚ) :=
  compareAngles (kneeScenarioCfg alpha) (kneeScenarioFirst alpha).2 kneePlayerAngles
    [(kneeAngleName, some 150)]

/-- C8: with similarity threshold 0.9 and range 180, against the reference
track entries knee=90 (t=0) then knee=150 (t=1), a performer steady at 90
degrees gets match=true and accuracy 1.0 at t=0, and at t=1 the smoothed
angle stays 90 for every smoothing coefficient, so similarity is
1 - 60/180 = 2/3 < 0.9, giving match=false and accuracy 0.0 under the
matchedCount / max(1, totalCount - allowedMisses) formula. -/
theorem compareAngles_knee_scenario (alpha : ℚ) :
    (kneeScenarioFirst alpha).1.«matches» = [(kneeAngleName, true)] ∧
    (kneeScenarioFirst alpha).1.accuracy = 1 ∧
    (kneeScenarioSecond alpha).1.«matches» = [(kneeAngleName, false)] ∧
    (kneeScenarioSecond alpha).1.accuracy = 0 ∧
    (kneeScenarioSecond alpha).1.similarities = [(kneeAngleName, 2/3)] := by
  have hsm : alpha * 90 + (1 - alpha) * 90 = (90 : ℚ) := by ring
  have hfirst : compareAnglesLoop (kneeScenarioCfg alpha) kneePlayerAngles
      [(kneeAngleName, some 90)]
      { hist := [], «matches» := [], similarities := [], diffs := [],
        count := 0, matchedCount := 0 }
      = { hist := [(kneeAngleName, 90)], «matches» := [(kneeAngleName, true)],
          similarities := [(kneeAngleName, 1)], diffs := [(kneeAngleName, some 0)],
          count := 1, matchedCount := 1 } := by
    norm_num [compareAnglesLoop, kneePlayerAngles, kneeScenarioCfg]
  have hsecond : compareAnglesLoop (kneeScenarioCfg alpha) kneePlayerAngles
      [(kneeAngleName, some 150)]
      { hist := [(kneeAngleName, 90)], «matches» := [], similarities := [], diffs := [],
        count := 0, matchedCount := 0 }
      = { hist := [(kneeAngleName, 90), (kneeAngleName, 90)],
          «matches» := [(kneeAngleName, false)],
          similarities := [(kneeAngleName, 2/3)],
          diffs := [(kneeAngleName, some 60)],
          count := 1, matchedCount := 0 } := by
    norm_num [compareAnglesLoop, kneePlayerAngles, kneeScenarioCfg, hsm, abs_sub_comm]
  refine ⟨?_, ?_, ?_, ?_, ?_⟩ <;>
    simp [kneeScenarioFirst, kneeScenarioSecond, compareAngles, hfirst, hsecond]

/- ----------------------------------------------------------------
Calibration unit (calculateNormalization, getTorsoSize, getTorsoCenter,
convertReferenceLandmarks).
---------------------------------------------------------------- -/

/-- One sparse reference landmark as stored in the reference JSON:
{id, x, y, z, visibility}. -/
structure RefLandmark where
  id : ℕ
  x : ℚ
  y : ℚ
  z : ℚ
  visibility : ℚ
deriving DecidableEq

def refLandmarkToLandmark (r : RefLandmark) : Landmark :=
  { x := r.x, y := r.y, z := r.z, visibility := r.visibility }

/-- convertReferenceLandmarks(refLandmarks): builds an id-indexed array by
writing each entry at its id, a later duplicate overwriting an earlier one;
ids never written stay absent. -/
def convertReferenceLandmarks (refLms : List RefLandmark) : ℕ → Option Landmark :=
  fun i => ((refLms.filter (fun r => r.id = i)).getLast?).map refLandmarkToLandmark

/-- The four module-level normalization globals. -/
structure NormState where
  scaleFactorX : ℚ
  scaleFactorY : ℚ
  offsetX : ℚ
  offsetY : ℚ
deriving DecidableEq

/-- The identity transform (scale 1, offset 0). -/
def identityNormState : NormState :=
  { scaleFactorX := 1, scaleFactorY := 1, offsetX := 0, offsetY := 0 }

/-- Shallow embedding of getTorsoSize(landmarks): the source dereferences
landmarks[11], [12], [23], [24] with no null or visibility guard, so a
missing landmark is a thrown TypeError, modelled by none. -/
def getTorsoSize (landmarks : ℕ → Option Landmark) (minTorsoSize : ℚ) :
    Option (ℚ × ℚ) := do
  let leftShoulder ← landmarks 11
  let rightShoulder ← landmarks 12
  let leftHip ← landmarks 23
  let rightHip ← landmarks 24
  pure (max |rightShoulder.x - leftShoulder.x| minTorsoSize,
    max |(leftHip.y + rightHip.y) / 2 - (leftShoulder.y + rightShoulder.y) / 2| minTorsoSize)

/-- Shallow embedding of getTorsoCenter(landmarks), with the same unguarded
member access as getTorsoSize. -/
def getTorsoCenter (landmarks : ℕ → Option Landmark) : Option (ℚ × ℚ) := do
  let leftShoulder ← landmarks 11
  let rightShoulder ← landmarks 12
  let leftHip ← landmarks 23
  let rightHip ← landmarks 24
  pure ((leftShoulder.x + rightShoulder.x + leftHip.x + rightHip.x) / 4,
    (leftShoulder.y + rightShoulder.y + leftHip.y + rightHip.y) / 4)

/-- Shallow embedding of
calculateNormalization(playerLandmarks, referenceLandmarks); a result of none
models the TypeError thrown by the unguarded torso landmark access. -/
def calculateNormalization (normalizeByTorso : Bool) (minTorsoSize : ℚ)
    (playerLandmarks : ℕ → Option Landmark) (referenceLandmarks : List RefLandmark) :
    Option NormState :=
  if !normalizeByTorso then
    some identityNormState
  else do
    let playerTorso ← getTorsoSize playerLandmarks minTorsoSize
    let refTorso ← getTorsoSize (convertReferenceLandmarks referenceLandmarks) minTorsoSize
    let avgScale := (refTorso.1 / playerTorso.1 + refTorso.2 / playerTorso.2) / 2
    let playerCenter ← getTorsoCenter playerLandmarks
    let refCenter ← getTorsoCenter (convertReferenceLandmarks referenceLandmarks)
    pure { scaleFactorX := avgScale, scaleFactorY := avgScale,
           offsetX := refCenter.1 - playerCenter.1 * avgScale,
           offsetY := refCenter.2 - playerCenter.2 * avgScale }

/-- C3 (amended): with normalization disabled the transform is the identity;
with it enabled, whenever the four torso landmarks are present in both poses
(their visibility is never consulted), both scale factors equal the average
of the torso width and height ratios (reference over performer, each torso
dimension floored at the configured minimum size) and the offset is
refCenter - scale * performerCenter over the four-point torso centroid.
A missing torso landmark does not fall back to the identity: it throws
(modelled by none), as the counterexample shows. -/
theorem calculateNormalization_formula_spec
    (minT : ℚ) (player : ℕ → Option Landmark) (refLms : List RefLandmark)
    (pLS pRS pLH pRH rLS rRS rLH rRH : Landmark)
    (hp11 : player 11 = some pLS) (hp12 : player 12 = some pRS)
    (hp23 : player 23 = some pLH) (hp24 : player 24 = some pRH)
    (hr11 : convertReferenceLandmarks refLms 11 = some rLS)
    (hr12 : convertReferenceLandmarks refLms 12 = some rRS)
    (hr23 : convertReferenceLandmarks refLms 23 = some rLH)
    (hr24 : convertReferenceLandmarks refLms 24 = some rRH) :
    calculateNormalization false minT player refLms = some identityNormState ∧
    (let avgScale : ℚ :=
      (max |rRS.x - rLS.x| minT / max |pRS.x - pLS.x| minT +
        max |(rLH.y + rRH.y) / 2 - (rLS.y + rRS.y) / 2| minT /
          max |(pLH.y + pRH.y) / 2 - (pLS.y + pRS.y) / 2| minT) / 2
    calculateNormalization true minT player refLms = some
      { scaleFactorX := avgScale, scaleFactorY := avgScale,
        offsetX := (rLS.x + rRS.x + rLH.x + rRH.x) / 4 -
          (pLS.x + pRS.x + pLH.x + pRH.x) / 4 * avgScale,
        offsetY := (rLS.y + rRS.y + rLH.y + rRH.y) / 4 -
          (pLS.y + pRS.y + pLH.y + pRH.y) / 4 * avgScale }) := by
  constructor
  · simp [calculateNormalization]
  · simp [calculateNormalization, getTorsoSize, getTorsoCenter,
      hp11, hp12, hp23, hp24, hr11, hr12, hr23, hr24]

/-- A complete four-point torso whose landmarks all have visibility 0. -/
def calibPlayerAllLowVis : ℕ → Option Landmark := fun i =>
  if i = 11 then some { x := 0, y := 0, z := 0, visibility := 0 }
  else if i = 12 then some { x := 2, y := 0, z := 0, visibility := 0 }
  else if i = 23 then some { x := 0, y := 2, z := 0, visibility := 0 }
  else if i = 24 then some { x := 2, y := 2, z := 0, visibility := 0 }
  else none

/-- A reference landmark list, all visibility 0, torso half the size of the player torso. -/
def calibRefAllLowVis : List RefLandmark :=
  [{ id := 11, x := 0, y := 0, z := 0, visibility := 0 },
   { id := 12, x := 1, y := 0, z := 0, visibility := 0 },
   { id := 23, x := 0, y := 1, z := 0, visibility := 0 },
   { id := 24, x := 1, y := 1, z := 0, visibility := 0 }]

/-- A reference landmark list with the left shoulder (id 11) absent. -/
def calibRefMissingShoulder : List RefLandmark :=
  [{ id := 12, x := 1, y := 0, z := 0, visibility := 1 },
   { id := 23, x := 0, y := 1, z := 0, visibility := 1 },
   { id := 24, x := 1, y := 1, z := 0, visibility := 1 }]

/-- Witness for the amended theorem of C3 at the concrete all-low-visibility
capture (every torso landmark present). -/
theorem calculateNormalization_formula_witness :
    (calibPlayerAllLowVis 11 = some { x := 0, y := 0, z := 0, visibility := 0 } ∧
      convertReferenceLandmarks calibRefAllLowVis 11
        = some { x := 0, y := 0, z := 0, visibility := 0 }) ∧
    calculateNormalization false (1/100) calibPlayerAllLowVis calibRefAllLowVis
      = some identityNormState := by
  have h := calculateNormalization_formula_spec (1/100) calibPlayerAllLowVis calibRefAllLowVis
    { x := 0, y := 0, z := 0, visibility := 0 } { x := 2, y := 0, z := 0, visibility := 0 }
    { x := 0, y := 2, z := 0, visibility := 0 } { x := 2, y := 2, z := 0, visibility := 0 }
    { x := 0, y := 0, z := 0, visibility := 0 } { x := 1, y := 0, z := 0, visibility := 0 }
    { x := 0, y := 1, z := 0, visibility := 0 } { x := 1, y := 1, z := 0, visibility := 0 }
    (by simp [calibPlayerAllLowVis]) (by simp [calibPlayerAllLowVis])
    (by simp [calibPlayerAllLowVis]) (by simp [calibPlayerAllLowVis])
    (by simp [convertReferenceLandmarks, calibRefAllLowVis, refLandmarkToLandmark])
    (by simp [convertReferenceLandmarks, calibRefAllLowVis, refLandmarkToLandmark])
    (by simp [convertReferenceLandmarks, calibRefAllLowVis, refLandmarkToLandmark])
    (by simp [convertReferenceLandmarks, calibRefAllLowVis, refLandmarkToLandmark])
  exact ⟨⟨by simp [calibPlayerAllLowVis],
    by simp [convertReferenceLandmarks, calibRefAllLowVis, refLandmarkToLandmark]⟩, h.1⟩

/-- Counterexample to C3: a reference pose missing torso landmark 11 makes
calculateNormalization throw (none), not fall back silently to the identity
transform; and an all-low-visibility capture is not treated as failed — it is
used as valid data and produces a non-identity scale of 1/2. -/
theorem calculateNormalization_no_identity_fallback_counterexample :
    calculateNormalization true (1/100) calibPlayerAllLowVis calibRefMissingShoulder
      = none ∧
    calculateNormalization true (1/100) calibPlayerAllLowVis calibRefAllLowVis
      = some { scaleFactorX := 1/2, scaleFactorY := 1/2, offsetX := 0, offsetY := 0 } ∧
    calculateNormalization true (1/100) calibPlayerAllLowVis calibRefAllLowVis
      ≠ some identityNormState := by
  refine ⟨?_, ?_, ?_⟩
  · simp [calculateNormalization, getTorsoSize, getTorsoCenter, convertReferenceLandmarks,
      calibRefMissingShoulder, calibPlayerAllLowVis, refLandmarkToLandmark]
  · norm_num [calculateNormalization, getTorsoSize, getTorsoCenter, convertReferenceLandmarks,
      calibRefAllLowVis, calibPlayerAllLowVis, refLandmarkToLandmark, max_def, abs]
  · norm_num [calculateNormalization, getTorsoSize, getTorsoCenter, convertReferenceLandmarks,
      calibRefAllLowVis, calibPlayerAllLowVis, refLandmarkToLandmark, identityNormState,
      max_def, abs]

/- ----------------------------------------------------------------
Reference track index: getReferencePoseAtTime (nearest lookup).
---------------------------------------------------------------- -/

/-- The scan of getReferencePoseAtTime: fold over all poses keeping the
entry with the strictly smallest |time - timestamp| seen so far. -/
def closestLoop (time : ℚ) : List RefPose → RefPose → ℚ → RefPose × ℚ
  | [], best, minDiff => (best, minDiff)
  | p :: rest, best, minDiff =>
    if |time - p.timestamp| < minDiff then
      closestLoop time rest p |time - p.timestamp|
    else
      closestLoop time rest best minDiff

/-- Shallow embedding of getReferencePoseAtTime(time): null when
referenceData is absent, the track is empty, or the nearest entry is farther
than the configured POSE_TIME_TOLERANCE_SEC. -/
def getReferencePoseAtTime (referenceData : Option (List RefPose))
    (tolerance time : ℚ) : Option RefPose :=
  match referenceData with
  | none => none
  | some poses =>
    match poses with
    | [] => none
    | p0 :: _ =>
      let r := closestLoop time poses p0 |time - p0.timestamp|
      if tolerance < r.2 then none else some r.1

/-- The scan returns an element of the candidates (or the initial best),
tracks its own distance exactly, and minimizes over everything it saw. -/
theorem closestLoop_spec (time : ℚ) :
    ∀ (l : List RefPose) (best : RefPose),
      ((closestLoop time l best |time - best.timestamp|).1 = best ∨
        (closestLoop time l best |time - best.timestamp|).1 ∈ l) ∧
      (closestLoop time l best |time - best.timestamp|).2
        = |time - (closestLoop time l best |time - best.timestamp|).1.timestamp| ∧
      (closestLoop time l best |time - best.timestamp|).2 ≤ |time - best.timestamp| ∧
      ∀ q ∈ l, (closestLoop time l best |time - best.timestamp|).2
        ≤ |time - q.timestamp| := by
  intro l
  induction l with
  | nil =>
    intro best
    exact ⟨Or.inl rfl, rfl, le_refl _, by simp⟩
  | cons p rest ih =>
    intro best
    by_cases h : |time - p.timestamp| < |time - best.timestamp|
    · have hred : closestLoop time (p :: rest) best |time - best.timestamp|
          = closestLoop time rest p |time - p.timestamp| := by
        simp [closestLoop, h]
      obtain ⟨hmem, heq, hle, hall⟩ := ih p
      rw [hred]
      refine ⟨?_, heq, le_trans hle h.le, ?_⟩
      · rcases hmem with h1 | h1
        · refine Or.inr ?_
          rw [h1]
          exact List.mem_cons_self p rest
        · exact Or.inr (List.mem_cons_of_mem p h1)
      · intro q hq
        rcases List.mem_cons.mp hq with rfl | hq'
        · exact hle
        · exact hall q hq'
    · have hred : closestLoop time (p :: rest) best |time - best.timestamp|
          = closestLoop time rest best |time - best.timestamp| := by
        simp [closestLoop, h]
      obtain ⟨hmem, heq, hle, hall⟩ := ih best
      rw [hred]
      refine ⟨?_, heq, hle, ?_⟩
      · rcases hmem with h1 | h1
        · exact Or.inl h1
        · exact Or.inr (List.mem_cons_of_mem p h1)
      · intro q hq
        rcases List.mem_cons.mp hq with rfl | hq'
        · exact le_trans hle (not_lt.mp h)
        · exact hall q hq'

/-- C9: getReferencePoseAtTime returns an entry achieving the minimal
|time - timestamp| over the whole track whenever that minimal distance is
within the tolerance, and null (never throwing) otherwise — in particular a
returned entry is never farther than the tolerance, and an absent or empty
track yields null. -/
theorem getReferencePoseAtTime_nearest_spec (referenceData : Option (List RefPose))
    (tolerance time : ℚ) :
    (getReferencePoseAtTime referenceData tolerance time).elim
      (referenceData = none ∨ referenceData = some [] ∨
        ∀ l, referenceData = some l → ∀ q ∈ l, tolerance < |time - q.timestamp|)
      (fun p => ∀ l, referenceData = some l →
        p ∈ l ∧ |time - p.timestamp| ≤ tolerance ∧
          ∀ q ∈ l, |time - p.timestamp| ≤ |time - q.timestamp|) := by
  cases referenceData with
  | none => simp [getReferencePoseAtTime]
  | some poses =>
    cases poses with
    | nil => simp [getReferencePoseAtTime]
    | cons p0 rest =>
      obtain ⟨hmem, heq, hle, hall⟩ := closestLoop_spec time (p0 :: rest) p0
      by_cases htol : tolerance <
          (closestLoop time (p0 :: rest) p0 |time - p0.timestamp|).2
      · simp only [getReferencePoseAtTime, if_pos htol, Option.elim]
        refine Or.inr (Or.inr ?_)
        intro l hl q hq
        obtain rfl : p0 :: rest = l := by injection hl
        exact lt_of_lt_of_le htol (hall q hq)
      · simp only [getReferencePoseAtTime, if_neg htol, Option.elim]
        intro l hl
        obtain rfl : p0 :: rest = l := by injection hl
        refine ⟨?_, ?_, ?_⟩
        · rcases hmem with h1 | h1
          · rw [h1]
            exact List.mem_cons_self p0 rest
          · exact h1
        · rw [← heq]
          exact not_lt.mp htol
        · intro q hq
          rw [← heq]
          exact hall q hq

/-- Witness for C9 at a concrete two-entry track: time 3, tolerance 1. -/
theorem getReferencePoseAtTime_nearest_witness :
    (getReferencePoseAtTime
        (some [{ timestamp := 3, tag := 0 }, { timestamp := 5, tag := 1 }]) 1 3).elim
      (some [({ timestamp := 3, tag := 0 } : RefPose), { timestamp := 5, tag := 1 }]
          = (none : Option (List RefPose)) ∨
        some [({ timestamp := 3, tag := 0 } : RefPose), { timestamp := 5, tag := 1 }]
          = some [] ∨
        ∀ l, some [({ timestamp := 3, tag := 0 } : RefPose), { timestamp := 5, tag := 1 }]
          = some l → ∀ q ∈ l, 1 < |(3 : ℚ) - q.timestamp|)
      (fun p => ∀ l,
        some [({ timestamp := 3, tag := 0 } : RefPose), { timestamp := 5, tag := 1 }]
          = some l →
        p ∈ l ∧ |(3 : ℚ) - p.timestamp| ≤ 1 ∧
          ∀ q ∈ l, |(3 : ℚ) - p.timestamp| ≤ |(3 : ℚ) - q.timestamp|) :=
  getReferencePoseAtTime_nearest_spec
    (some [{ timestamp := 3, tag := 0 }, { timestamp := 5, tag := 1 }]) 1 3

/- ----------------------------------------------------------------
Reference track index: getReferencePosesInWindow (windowed binary
search with the module-level lastSearchIndex hint).
---------------------------------------------------------------- -/

/-- poses[i].timestamp as read by the search (0 as a dummy out of range; the
search only ever evaluates it in range). -/
def tsAt (poses : List RefPose) (i : ℕ) : ℚ :=
  ((poses[i]?).map RefPose.timestamp).getD 0

/-- The binary-search loop of the source for the first pose with
timestamp ≥ windowStart, bracketed by [left, right], with startIdx holding
the best index found so far (poses.length when none).  The loop halves the
bracket each iteration, so any fuel of at least bracket-width + 1 reaches
the natural exit. -/
def findFirstGE (poses : List RefPose) (windowStart : ℚ) :
    ℕ → ℤ → ℤ → ℤ → ℤ
  | 0, _, _, startIdx => startIdx
  | fuel + 1, left, right, startIdx =>
    if left ≤ right then
      let mid := left + (right - left) / 2
      if windowStart ≤ tsAt poses mid.toNat then
        findFirstGE poses windowStart fuel left (mid - 1) mid
      else
        findFirstGE poses windowStart fuel (mid + 1) right startIdx
    else startIdx

/-- One-step unfolding of findFirstGE for positive fuel, convenient for
evaluating the search on concrete tracks. -/
theorem findFirstGE_step (poses : List RefPose) (windowStart : ℚ) (fuel : ℕ)
    (left right startIdx : ℤ) (h : fuel ≠ 0) :
    findFirstGE poses windowStart fuel left right startIdx =
      if left ≤ right then
        if windowStart ≤ tsAt poses (left + (right - left) / 2).toNat then
          findFirstGE poses windowStart (fuel - 1) left ((left + (right - left) / 2) - 1)
            (left + (right - left) / 2)
        else
          findFirstGE poses windowStart (fuel - 1) ((left + (right - left) / 2) + 1) right
            startIdx
      else startIdx := by
  cases fuel with
  | zero => exact absurd rfl h
  | succ n => rfl

/-- The collection loop of getReferencePosesInWindow: walk forward from
startIdx, keeping entries until the first timestamp beyond windowEnd. -/
def collectWindow (poses : List RefPose) (windowEnd : ℚ) (startIdx : ℕ) : List RefPose :=
  (poses.drop startIdx).takeWhile (fun p => decide (p.timestamp ≤ windowEnd))

/-- Shallow embedding of getReferencePosesInWindow(time, windowSize) together
with the module-level lastSearchIndex cache: takes the cache value, returns
the poses in the window and the updated cache. -/
def getReferencePosesInWindow (referenceData : Option (List RefPose))
    (lastSearchIndex : ℕ) (time windowSize : ℚ) : List RefPose × ℕ :=
  match referenceData with
  | none => ([], lastSearchIndex)
  | some poses =>
    if poses.length = 0 then ([], lastSearchIndex)
    else
      let windowStart := time - windowSize
      let windowEnd := time + windowSize
      let bracket : ℤ × ℤ :=
        if 0 < lastSearchIndex ∧ lastSearchIndex < poses.length then
          if |tsAt poses lastSearchIndex - time| < windowSize * 2 then
            (max 0 ((lastSearchIndex : ℤ) - 10),
             min ((poses.length : ℤ) - 1) ((lastSearchIndex : ℤ) + 10))
          else (0, (poses.length : ℤ) - 1)
        else (0, (poses.length : ℤ) - 1)
      let startIdx := findFirstGE poses windowStart (poses.length + 1) bracket.1 bracket.2
        (poses.length : ℤ)
      let posesInWindow := collectWindow poses windowEnd startIdx.toNat
      let newIndex := if 0 < posesInWindow.length then startIdx.toNat else lastSearchIndex
      (posesInWindow, newIndex)

/-- The sortedness invariant of the reference track: timestamps pairwise
non-decreasing. -/
def SortedByTime (l : List RefPose) : Prop :=
  l.Pairwise (fun a b => a.timestamp ≤ b.timestamp)

theorem tsAt_cons_zero (a : RefPose) (t : List RefPose) : tsAt (a :: t) 0 = a.timestamp := by
  simp [tsAt]

theorem tsAt_cons_succ (a : RefPose) (t : List RefPose) (k : ℕ) :
    tsAt (a :: t) (k + 1) = tsAt t k := by
  simp [tsAt]

theorem tsAt_eq_getElem (l : List RefPose) (i : ℕ) (hi : i < l.length) :
    tsAt l i = (l[i]).timestamp := by
  simp [tsAt, List.getElem?_eq_getElem hi]

/-- Sorted timestamps are monotone in the index. -/
theorem tsAt_mono (l : List RefPose) (h : SortedByTime l) {i j : ℕ} (hij : i ≤ j)
    (hj : j < l.length) : tsAt l i ≤ tsAt l j := by
  rcases eq_or_lt_of_le hij with rfl | hlt
  · exact le_refl _
  · have hi : i < l.length := lt_trans hlt hj
    rw [tsAt_eq_getElem l i hi, tsAt_eq_getElem l j hj]
    exact List.pairwise_iff_getElem.mp h i j hi hj hlt

/-- Correctness of the bracketed binary search under its loop invariants: the
result is the least index (within [0, length]) whose timestamp reaches
windowStart, provided everything strictly below the bracket fails the test
and the carried candidate startIdx is sound. -/
theorem findFirstGE_spec (poses : List RefPose) (ws : ℚ) (hsorted : SortedByTime poses) :
    ∀ (fuel : ℕ) (left right s : ℤ),
      0 ≤ left →
      right ≤ (poses.length : ℤ) - 1 →
      right < s →
      0 ≤ s →
      s ≤ (poses.length : ℤ) →
      (s = (poses.length : ℤ) ∨ ws ≤ tsAt poses s.toNat) →
      (∀ k : ℤ, 0 ≤ k → k < left → ¬ ws ≤ tsAt poses k.toNat) →
      (∀ k : ℤ, right < k → k < s → ¬ ws ≤ tsAt poses k.toNat) →
      (right + 1 - left).toNat ≤ fuel →
      0 ≤ findFirstGE poses ws fuel left right s ∧
        findFirstGE poses ws fuel left right s ≤ (poses.length : ℤ) ∧
        (findFirstGE poses ws fuel left right s = (poses.length : ℤ) ∨
          ws ≤ tsAt poses (findFirstGE poses ws fuel left right s).toNat) ∧
        (∀ k : ℤ, 0 ≤ k → k < findFirstGE poses ws fuel left right s →
          ¬ ws ≤ tsAt poses k.toNat) := by
  intro fuel
  induction fuel with
  | zero =>
    intro left right s hl0 hrn hrs hs0 hsn hdisj hinv6 hinv7 hfuel
    have hlr : right < left := by omega
    simp only [findFirstGE]
    refine ⟨hs0, hsn, hdisj, ?_⟩
    intro k hk0 hks
    by_cases hkl : k < left
    · exact hinv6 k hk0 hkl
    · exact hinv7 k (by omega) hks
  | succ n ih =>
    intro left right s hl0 hrn hrs hs0 hsn hdisj hinv6 hinv7 hfuel
    by_cases hlr : left ≤ right
    · have hm1 : left ≤ left + (right - left) / 2 := by omega
      have hm2 : left + (right - left) / 2 ≤ right := by omega
      by_cases hP : ws ≤ tsAt poses (left + (right - left) / 2).toNat
      · have hred : findFirstGE poses ws (n + 1) left right s
            = findFirstGE poses ws n left ((left + (right - left) / 2) - 1)
                (left + (right - left) / 2) := by
          rw [findFirstGE_step poses ws (n + 1) left right s (Nat.succ_ne_zero n),
            if_pos hlr, if_pos hP]
          norm_num
        rw [hred]
        exact ih left ((left + (right - left) / 2) - 1) (left + (right - left) / 2)
          hl0 (by omega) (by omega) (by omega) (by omega) (Or.inr hP) hinv6
          (by intro k h1 h2; exfalso; omega) (by omega)
      · have hred : findFirstGE poses ws (n + 1) left right s
            = findFirstGE poses ws n ((left + (right - left) / 2) + 1) right s := by
          rw [findFirstGE_step poses ws (n + 1) left right s (Nat.succ_ne_zero n),
            if_pos hlr, if_neg hP]
          norm_num
        rw [hred]
        refine ih ((left + (right - left) / 2) + 1) right s (by omega) hrn hrs hs0 hsn hdisj
          ?_ hinv7 (by omega)
        intro k hk0 hkm
        by_cases hkl : k < left
        · exact hinv6 k hk0 hkl
        · intro hws
          exact hP (le_trans hws (tsAt_mono poses hsorted (by omega) (by omega)))
    · have hred : findFirstGE poses ws (n + 1) left right s = s := by
        rw [findFirstGE_step poses ws (n + 1) left right s (Nat.succ_ne_zero n), if_neg hlr]
      rw [hred]
      refine ⟨hs0, hsn, hdisj, ?_⟩
      intro k hk0 hks
      by_cases hkl : k < left
      · exact hinv6 k hk0 hkl
      · exact hinv7 k (by omega) hks

/-- On a sorted list, filtering by an upward-closed failure (timestamp ≤ we
fails from some point on) equals taking the prefix. -/
theorem filter_le_eq_takeWhile_of_sorted (we : ℚ) :
    ∀ (l : List RefPose), SortedByTime l →
      l.filter (fun p => decide (p.timestamp ≤ we))
        = l.takeWhile (fun p => decide (p.timestamp ≤ we)) := by
  intro l
  induction l with
  | nil => intro _; simp
  | cons a t ih =>
    intro h
    rw [SortedByTime, List.pairwise_cons] at h
    by_cases ha : a.timestamp ≤ we
    · rw [List.filter_cons, List.takeWhile_cons_of_pos (by simp [ha]), if_pos (by simp [ha])]
      rw [ih h.2]
    · rw [List.filter_cons, List.takeWhile_cons_of_neg (by simp [ha]), if_neg (by simp [ha])]
      rw [List.filter_eq_nil_iff]
      intro b hb
      simp only [decide_eq_true_eq]
      intro hb2
      exact ha (le_trans (h.1 b hb) hb2)

/-- On a sorted list, the in-window filter is: drop the strict prefix below
windowStart, then take while at most windowEnd. -/
theorem filter_window_eq_takeWhile_dropWhile (ws we : ℚ) :
    ∀ (l : List RefPose), SortedByTime l →
      l.filter (fun p => decide (ws ≤ p.timestamp ∧ p.timestamp ≤ we))
        = (l.dropWhile (fun p => decide (¬ ws ≤ p.timestamp))).takeWhile
            (fun p => decide (p.timestamp ≤ we)) := by
  intro l
  induction l with
  | nil => intro _; simp
  | cons a t ih =>
    intro h
    have hpc := h
    rw [SortedByTime, List.pairwise_cons] at hpc
    by_cases hA : ws ≤ a.timestamp
    · rw [List.dropWhile_cons_of_neg (by simp [hA])]
      by_cases hB : a.timestamp ≤ we
      · rw [List.takeWhile_cons_of_pos (by simp [hB]),
          List.filter_cons, if_pos (by simp [hA, hB])]
        have hcongr : t.filter (fun p => decide (ws ≤ p.timestamp ∧ p.timestamp ≤ we))
            = t.filter (fun p => decide (p.timestamp ≤ we)) := by
          apply List.filter_congr
          intro x hx
          exact decide_eq_decide.mpr (and_iff_right (le_trans hA (hpc.1 x hx)))
        rw [hcongr, filter_le_eq_takeWhile_of_sorted we t hpc.2]
      · rw [List.takeWhile_cons_of_neg (by simp [hB]),
          List.filter_cons, if_neg (by simp [hB])]
        rw [List.filter_eq_nil_iff]
        intro b hb
        simp only [decide_eq_true_eq]
        rintro ⟨-, hb2⟩
        exact hB (le_trans (hpc.1 b hb) hb2)
    · rw [List.dropWhile_cons_of_pos (by simp [hA]),
        List.filter_cons, if_neg (by simp [hA])]
      exact ih hpc.2

/-- When r is the least index whose timestamp reaches windowStart (or the
length if none), dropping r elements is the same as dropping the strict
prefix below windowStart. -/
theorem drop_eq_dropWhile_of_firstGE (ws : ℚ) :
    ∀ (l : List RefPose) (r : ℕ), r ≤ l.length →
      (∀ k : ℕ, k < r → ¬ ws ≤ tsAt l k) →
      (r = l.length ∨ ws ≤ tsAt l r) →
      l.drop r = l.dropWhile (fun p => decide (¬ ws ≤ p.timestamp)) := by
  intro l
  induction l with
  | nil =>
    intro r hr _ _
    simp at hr
    simp [hr]
  | cons a t ih =>
    intro r hr hlt hstart
    cases r with
    | zero =>
      have ha : ws ≤ a.timestamp := by
        rcases hstart with hcon | h
        · exfalso
          simp at hcon
        · rw [tsAt_cons_zero] at h
          exact h
      rw [List.drop_zero, List.dropWhile_cons_of_neg (by simp [ha])]
    | succ m =>
      have ha : ¬ ws ≤ a.timestamp := by
        have h0 := hlt 0 (Nat.succ_pos m)
        rw [tsAt_cons_zero] at h0
        exact h0
      rw [List.drop_succ_cons, List.dropWhile_cons_of_pos (by simp [ha])]
      refine ih m (by simpa using hr) ?_ ?_
      · intro k hk
        have hk1 := hlt (k + 1) (by omega)
        rw [tsAt_cons_succ] at hk1
        exact hk1
      · rcases hstart with h | h
        · left
          simpa using h
        · right
          rw [tsAt_cons_succ] at h
          exact h

/-- C1 (amended): with the cached lastSearchIndex at its initial value 0 (so
the hint bracket is not applied and the binary search runs over the whole
track), getReferencePosesInWindow(t, w) on a sorted track returns exactly the
entries with |timestamp - t| ≤ w, in track (hence ascending-timestamp) order.
The counterexample shows this is NOT independent of the hint: a hint left by
an earlier query can make the narrowed bracket omit in-window entries. -/
theorem getReferencePosesInWindow_exact_when_unhinted (poses : List RefPose)
    (hsorted : SortedByTime poses) (time windowSize : ℚ) :
    (getReferencePosesInWindow (some poses) 0 time windowSize).1
      = poses.filter (fun p => decide (|p.timestamp - time| ≤ windowSize)) := by
  by_cases hn : poses.length = 0
  · rw [List.length_eq_zero.mp hn]
    simp [getReferencePosesInWindow]
  · obtain ⟨h0, hle, hdisj, hmin⟩ := findFirstGE_spec poses (time - windowSize) hsorted
      (poses.length + 1) 0 ((poses.length : ℤ) - 1) (poses.length : ℤ)
      (le_refl 0) (le_refl _) (by omega) (by omega) (le_refl _) (Or.inl rfl)
      (by intro k h1 h2; exfalso; omega) (by intro k h1 h2; exfalso; omega) (by omega)
    have h1 : (getReferencePosesInWindow (some poses) 0 time windowSize).1
        = collectWindow poses (time + windowSize)
            (findFirstGE poses (time - windowSize) (poses.length + 1) 0
              ((poses.length : ℤ) - 1) (poses.length : ℤ)).toNat := by
      simp [getReferencePosesInWindow, hn]
    rw [h1, collectWindow]
    have hdrop : poses.drop (findFirstGE poses (time - windowSize) (poses.length + 1) 0
          ((poses.length : ℤ) - 1) (poses.length : ℤ)).toNat
        = poses.dropWhile (fun p => decide (¬ (time - windowSize) ≤ p.timestamp)) := by
      refine drop_eq_dropWhile_of_firstGE (time - windowSize) poses _ (by omega) ?_ ?_
      · intro k hk
        have := hmin (k : ℤ) (by omega) (by omega)
        simpa using this
      · rcases hdisj with h | h
        · left
          omega
        · right
          exact h
    rw [hdrop, ← filter_window_eq_takeWhile_dropWhile (time - windowSize)
      (time + windowSize) poses hsorted]
    apply List.filter_congr
    intro x hx
    apply decide_eq_decide.mpr
    rw [abs_sub_le_iff]
    constructor
    · rintro ⟨hx1, hx2⟩
      exact ⟨by linarith, by linarith⟩
    · rintro ⟨hx1, hx2⟩
      exact ⟨by linarith, by linarith⟩

/-- Witness for the amended theorem of C1 at a concrete sorted two-entry track:
the unhinted query returns exactly the in-window filter, here the whole
track. -/
theorem getReferencePosesInWindow_exact_witness :
    SortedByTime [({ timestamp := 0, tag := 0 } : RefPose), { timestamp := 1, tag := 1 }] ∧
    (getReferencePosesInWindow
        (some [({ timestamp := 0, tag := 0 } : RefPose), { timestamp := 1, tag := 1 }]) 0 0 2).1
      = [({ timestamp := 0, tag := 0 } : RefPose), { timestamp := 1, tag := 1 }].filter
          (fun p => decide (|p.timestamp - 0| ≤ 2)) ∧
    [({ timestamp := 0, tag := 0 } : RefPose), { timestamp := 1, tag := 1 }].filter
        (fun p => decide (|p.timestamp - 0| ≤ 2))
      = [({ timestamp := 0, tag := 0 } : RefPose), { timestamp := 1, tag := 1 }] := by
  have hsorted : SortedByTime
      [({ timestamp := 0, tag := 0 } : RefPose), { timestamp := 1, tag := 1 }] := by
    norm_num [SortedByTime, List.pairwise_cons]
  refine ⟨hsorted, getReferencePosesInWindow_exact_when_unhinted _ hsorted 0 2, ?_⟩
  norm_num [List.filter_cons]

/-- A sorted 12-entry reference track with integer timestamps 0..11, used to
exhibit the hint unsoundness. -/
def cxTrack : List RefPose :=
  [{ timestamp := 0, tag := 0 }, { timestamp := 1, tag := 1 }, { timestamp := 2, tag := 2 },
   { timestamp := 3, tag := 3 }, { timestamp := 4, tag := 4 }, { timestamp := 5, tag := 5 },
   { timestamp := 6, tag := 6 }, { timestamp := 7, tag := 7 }, { timestamp := 8, tag := 8 },
   { timestamp := 9, tag := 9 }, { timestamp := 10, tag := 10 }, { timestamp := 11, tag := 11 }]

/-- Counterexample to C1: after the legitimate query (t=11, w=0) leaves the
cached lastSearchIndex at 11, the query (t=10, w=10) narrows its bracket to
[1, 11] (the hinted timestamp is within 2w of t), so the binary search can
never report an index below 1, and the entry at timestamp 0 — squarely inside
the window, |0 - 10| ≤ 10 — is omitted from the result.  The result therefore
does depend on the cached hint. -/
theorem getReferencePosesInWindow_hint_counterexample :
    SortedByTime cxTrack ∧
    (getReferencePosesInWindow (some cxTrack) 0 11 0).2 = 11 ∧
    |({ timestamp := 0, tag := 0 } : RefPose).timestamp - 10| ≤ 10 ∧
    ({ timestamp := 0, tag := 0 } : RefPose) ∈ cxTrack ∧
    ({ timestamp := 0, tag := 0 } : RefPose) ∉
      (getReferencePosesInWindow (some cxTrack)
        ((getReferencePosesInWindow (some cxTrack) 0 11 0).2) 10 10).1 := by
  have n1 : Int.toNat 1 = 1 := rfl
  have n3 : Int.toNat 3 = 3 := rfl
  have n5 : Int.toNat 5 = 5 := rfl
  have n6 : Int.toNat 6 = 6 := rfl
  have n8 : Int.toNat 8 = 8 := rfl
  have n10 : Int.toNat 10 = 10 := rfl
  have n11 : Int.toNat 11 = 11 := rfl
  have t1 : tsAt cxTrack 1 = 1 := rfl
  have t3 : tsAt cxTrack 3 = 3 := rfl
  have t5 : tsAt cxTrack 5 = 5 := rfl
  have t6 : tsAt cxTrack 6 = 6 := rfl
  have t8 : tsAt cxTrack 8 = 8 := rfl
  have t10 : tsAt cxTrack 10 = 10 := rfl
  have t11 : tsAt cxTrack 11 = 11 := rfl
  have hlen : cxTrack.length = 12 := rfl
  have hd11 : cxTrack.drop 11 = [{ timestamp := 11, tag := 11 }] := rfl
  have m1 : max (0 : ℤ) (11 - 10) = 1 := rfl
  have m2 : min ((12 : ℤ) - 1) (11 + 10) = 11 := rfl
  have hd1 : cxTrack.drop 1
      = [{ timestamp := 1, tag := 1 }, { timestamp := 2, tag := 2 },
         { timestamp := 3, tag := 3 }, { timestamp := 4, tag := 4 },
         { timestamp := 5, tag := 5 }, { timestamp := 6, tag := 6 },
         { timestamp := 7, tag := 7 }, { timestamp := 8, tag := 8 },
         { timestamp := 9, tag := 9 }, { timestamp := 10, tag := 10 },
         { timestamp := 11, tag := 11 }] := rfl
  have q1 : findFirstGE cxTrack 11 13 0 11 12 = 11 := by
    rw [findFirstGE_step _ _ _ _ _ _ (by norm_num)]
    norm_num [n5, t5]
    rw [findFirstGE_step _ _ _ _ _ _ (by norm_num)]
    norm_num [n8, t8]
    rw [findFirstGE_step _ _ _ _ _ _ (by norm_num)]
    norm_num [n10, t10]
    rw [findFirstGE_step _ _ _ _ _ _ (by norm_num)]
    norm_num [n11, t11]
    rw [findFirstGE_step _ _ _ _ _ _ (by norm_num)]
    norm_num
  have hq1 : getReferencePosesInWindow (some cxTrack) 0 11 0
      = ([{ timestamp := 11, tag := 11 }], 11) := by
    simp only [getReferencePosesInWindow, hlen]
    norm_num [q1, n11, collectWindow, hd11, List.takeWhile_cons]
  have q2 : findFirstGE cxTrack 0 13 1 11 12 = 1 := by
    rw [findFirstGE_step _ _ _ _ _ _ (by norm_num)]
    norm_num [n6, t6]
    rw [findFirstGE_step _ _ _ _ _ _ (by norm_num)]
    norm_num [n3, t3]
    rw [findFirstGE_step _ _ _ _ _ _ (by norm_num)]
    norm_num [n1, t1]
    rw [findFirstGE_step _ _ _ _ _ _ (by norm_num)]
    norm_num
  have hq2 : ({ timestamp := 0, tag := 0 } : RefPose) ∉
      (getReferencePosesInWindow (some cxTrack) 11 10 10).1 := by
    simp only [getReferencePosesInWindow, hlen]
    norm_num [t11, m1, m2, q2, n1, collectWindow, hd1, List.takeWhile_cons, RefPose.mk.injEq]
  refine ⟨?_, ?_, ?_, ?_, ?_⟩
  · norm_num [SortedByTime, cxTrack, List.pairwise_cons]
  · rw [hq1]
  · norm_num
  · simp [cxTrack]
  · rw [hq1]
    exact hq2
